import Mathlib

/-!
Verification of the WAL-redo subsystem (`pageserver/src/walredo/mod.rs`).

The Rust source is shallowly embedded: byte buffers are `List Nat`,
durations are natural numbers of seconds, async stream operations are
modelled by an explicit per-exchange environment recording how long each
stream step takes and what it returns, and the mutex-guarded manager
state is threaded explicitly through `request_redo`.
-/

/-- A byte buffer (`Bytes` in the source). -/
abbrev Bytes := List Nat

/-- Modelled from the spec: `RelTag` (from the missing `relish` module) is an
opaque identifier of a relation; only its identity matters here. -/
structure RelTag where
  spcnode : Nat
  dbnode : Nat
  relnode : Nat
  forknum : Nat
  deriving DecidableEq, Repr

/-- Modelled from the spec: `RelishTag` (from the missing `relish` module) is a
tagged union distinguishing ordinary relation pages from other stored object
kinds; the non-relation kinds are collapsed into one constructor carrying an
opaque discriminant. -/
inductive RelishTag where
  | Relation (rel : RelTag)
  | NonRelation (kind : Nat)
  deriving DecidableEq, Repr

/-- Modelled from the spec: a WAL record is an opaque payload plus its log
position (`WALRecord` from the missing `repository` module). The payload
field is called `rec` in the source; Lean reserves that name for the
recursor, so it is `recBytes` here. -/
structure WALRecord where
  lsn : Nat
  recBytes : Bytes
  deriving DecidableEq, Repr

/-- `BufferTag` (mod.rs lines 55-59): `RelTag` plus block number. -/
structure BufferTag where
  rel : RelTag
  blknum : Nat
  deriving DecidableEq, Repr

/-- `WalRedoRequest` (mod.rs lines 139-147). -/
structure WalRedoRequest where
  rel : RelishTag
  blknum : Nat
  lsn : Nat
  base_img : Option Bytes
  records : List WALRecord
  deriving DecidableEq, Repr

/-- Underlying `std::io::Error` values observed on the process streams:
either a timeout produced by the elapsed `tokio::time::timeout` (converted
into an IO error by the `?` operator) or some other stream error carrying an
opaque code. -/
inductive IoErr where
  | timedOut
  | streamErr (code : Nat)
  deriving DecidableEq, Repr

/-- `WalRedoError` (mod.rs lines 150-157): transparent IO error or
invalid-state. -/
inductive WalRedoError where
  | IoError (e : IoErr)
  | InvalidState
  deriving DecidableEq, Repr

/-- `TIMEOUT` (mod.rs line 101): 20 seconds. -/
def TIMEOUT : Nat := 20

/-- `tokio::time::timeout(TIMEOUT, fut).await??` on one stream step: if the
step's completion time exceeds the bound, the result is a timeout IO error;
otherwise the step's own result stands. -/
def timeoutStep (dur : Nat) (res : Except IoErr α) : Except IoErr α :=
  if TIMEOUT < dur then .error .timedOut else res

/-- Per-exchange behaviour of the external process's streams: how long each
of the three stream steps (write of the encoded buffer, flush, read of the
response) takes, whether write/flush succeed, and the bytes the process
emits on its stdout during this exchange. -/
structure ExchangeEnv where
  writeDur : Nat
  flushDur : Nat
  readDur : Nat
  writeRes : Except IoErr Unit
  flushRes : Except IoErr Unit
  stdoutData : Bytes
  deriving Repr

/-- Modelled from the spec: `request::serialize_request` (missing `request`
module) encodes page identity, a presence flag plus the prior image when
present, the WAL records in order (log position then payload), and a
terminating sentinel. The exact byte layout is an external protocol detail;
this encoding preserves exactly the structure the spec names. -/
def serialize_request (tag : BufferTag) (base_img : Option Bytes)
    (records : List WALRecord) : Bytes :=
  [tag.rel.spcnode, tag.rel.dbnode, tag.rel.relnode, tag.rel.forknum,
   tag.blknum]
  ++ (match base_img with
      | some img => 1 :: img
      | none => [0])
  ++ (records.flatMap fun r => r.lsn :: r.recBytes)
  ++ [255]

/-- `stdout.read_exact(&mut buf)` with `buf = vec![0u8; 8192]`: succeeds
filling the whole buffer from the stream, or fails with an unexpected
end-of-file when the stream ends first (an open-but-silent stream instead
shows up as a long `readDur`, hence a timeout). -/
def read_exact (stream : Bytes) (n : Nat) : Except IoErr Bytes :=
  if n ≤ stream.length then .ok (stream.take n) else .error (.streamErr 0)

/-- The `f_stdin` half of the exchange (mod.rs lines 406-413): write the
encoded buffer, then flush, each step independently bounded by `TIMEOUT`. -/
def f_stdin (env : ExchangeEnv) (tag : BufferTag) (base_img : Option Bytes)
    (records : List WALRecord) : Except IoErr Unit :=
  let _buf := serialize_request tag base_img records
  match timeoutStep env.writeDur env.writeRes with
  | .error e => .error e
  | .ok _ =>
      match timeoutStep env.flushDur env.flushRes with
      | .error e => .error e
      | .ok _ => .ok ()

/-- The `f_stdout` half of the exchange (mod.rs lines 416-422): read exactly
one 8192-byte page buffer, bounded by `TIMEOUT`. -/
def f_stdout (env : ExchangeEnv) : Except IoErr Bytes :=
  timeoutStep env.readDur (read_exact env.stdoutData 8192)

/-- `PostgresRedoProcess::apply_wal_records` (mod.rs lines 390-426):
`tokio::try_join!(f_stdout, f_stdin)` joins the two concurrent halves; the
exchange succeeds with the bytes read from stdout only when both halves
succeed, and fails with one of the halves' IO errors otherwise (which
failing half's error is surfaced first is a scheduling detail; the stdout
half is taken first here, matching the argument order of the join). -/
def apply_wal_records (env : ExchangeEnv) (tag : BufferTag)
    (base_img : Option Bytes) (records : List WALRecord) :
    Except IoErr Bytes :=
  let stdinRes := f_stdin env tag base_img records
  match f_stdout env with
  | .error e => .error e
  | .ok buf =>
      match stdinRes with
      | .error e => .error e
      | .ok _ => .ok buf

/-- Handle to the external WAL-redo process (`PostgresRedoProcess`, mod.rs
lines 288-291). The source stores the child's stdin/stdout handles; here the
handle carries an identity so that reuse of one and the same instance is
expressible, while per-exchange stream behaviour lives in `ExchangeEnv`. -/
structure PostgresRedoProcess where
  pid : Nat
  deriving DecidableEq, Repr

/-- The mutable state owned by one `PostgresRedoManager`: the mutex-guarded
optional process handle (mod.rs line 136) together with the metric state the
module touches: `WAL_REDO_RECORD_COUNTER` and the observation lists of the
`WAL_REDO_WAIT_TIME` and `WAL_REDO_TIME` histograms (mod.rs lines 108-122). -/
structure ManagerState where
  process : Option PostgresRedoProcess
  walRecordsReplayed : Nat
  waitTimeObs : List Nat
  redoTimeObs : List Nat
  deriving DecidableEq, Repr

/-- `PostgresRedoManager::new` (mod.rs lines 219-235): the process slot
starts empty; metrics start with no observations and a zero counter. -/
def PostgresRedoManager.new : ManagerState :=
  { process := none, walRecordsReplayed := 0, waitTimeObs := [], redoTimeObs := [] }

/-- `DummyRedoManager::request_redo` (mod.rs lines 88-99): always refuses. -/
def DummyRedoManager.request_redo (_rel : RelishTag) (_blknum _lsn : Nat)
    (_base_img : Option Bytes) (_records : List WALRecord) :
    Except WalRedoError Bytes :=
  .error .InvalidState

/-- `PostgresRedoManager::handle_apply_request` (mod.rs lines 240-282):
relation pages go through the process exchange, everything else through the
pure in-process function `nonrel::apply_nonrel` (missing module, passed in
as a parameter); an IO error is wrapped as `WalRedoError::IoError`. -/
def handle_apply_request (applyNonrel : WalRedoRequest → Bytes)
    (env : ExchangeEnv) (request : WalRedoRequest) : Except WalRedoError Bytes :=
  let apply_result : Except IoErr Bytes :=
    match request.rel with
    | .Relation rel =>
        apply_wal_records env { rel := rel, blknum := request.blknum }
          request.base_img request.records
    | .NonRelation _ => .ok (applyNonrel request)
  match apply_result with
  | .error e => .error (.IoError e)
  | .ok img => .ok img

/-- Per-call environment of `request_redo`: the outcome and duration of a
process launch (consulted only when the slot is empty), the time spent
waiting for the process-slot lock (call entry to lock acquisition), the
duration of `handle_apply_request` itself, and the stream behaviour for this
call's exchange. -/
structure RedoEnv where
  launchResult : Except IoErr PostgresRedoProcess
  launchDur : Nat
  lockWaitDur : Nat
  applyDur : Nat
  exch : ExchangeEnv

/-- `PostgresRedoManager::request_redo` (mod.rs lines 169-212). Timeline:
entry at time 0, the lock is acquired at `lockWaitDur`, a launch (first use
only) takes `launchDur`, the apply takes `applyDur`. The wait histogram
observes lock acquisition minus entry; the redo histogram observes end minus
lock acquisition. A launch failure propagates through the question-mark
operator, returning before either histogram is observed. -/
def request_redo (applyNonrel : WalRedoRequest → Bytes) (env : RedoEnv)
    (st : ManagerState) (rel : RelishTag) (blknum lsn : Nat)
    (base_img : Option Bytes) (records : List WALRecord) :
    Except WalRedoError Bytes × ManagerState :=
  let request : WalRedoRequest :=
    { rel := rel, blknum := blknum, lsn := lsn,
      base_img := base_img, records := records }
  match st.process with
  | none =>
      match env.launchResult with
      | .error e => (.error (.IoError e), st)
      | .ok p =>
          let st1 := { st with process := some p }
          let result := handle_apply_request applyNonrel env.exch request
          (result,
           { st1 with
             waitTimeObs := st1.waitTimeObs ++ [env.lockWaitDur],
             redoTimeObs := st1.redoTimeObs ++ [env.launchDur + env.applyDur] })
  | some _ =>
      let result := handle_apply_request applyNonrel env.exch request
      (result,
       { st with
         waitTimeObs := st.waitTimeObs ++ [env.lockWaitDur],
         redoTimeObs := st.redoTimeObs ++ [env.applyDur] })

/-- One result of `stderr_buffered.read_line(&mut line)` in the stderr drain
loop (mod.rs lines 363-380): a decoding/read error, a clean end-of-stream
(`Ok(0)`), or a non-empty line. -/
inductive ReadLineResult where
  | decodeErr
  | eof
  | line (s : Bytes)
  deriving DecidableEq, Repr

/-- A log emission of the stderr drain loop: the forwarded line at error
severity, or the decode-failure note at debug severity. -/
inductive LogEvent where
  | errorLine (s : Bytes)
  | debugDecodeFailure
  deriving DecidableEq, Repr

/-- The stderr drain loop body (mod.rs lines 367-378) run against a finite
prefix of read results: returns the emitted log events and the read result
on which the loop broke out (`none` when the prefix is exhausted with the
loop still running). An error result logs at debug severity and continues;
`Ok(0)` breaks; a line is forwarded at error severity and the loop
continues. -/
def stderrDrainLoop : List ReadLineResult → List LogEvent × Option ReadLineResult
  | [] => ([], none)
  | .decodeErr :: rest =>
      let r := stderrDrainLoop rest
      (.debugDecodeFailure :: r.1, r.2)
  | .eof :: _ => ([], some .eof)
  | .line s :: rest =>
      let r := stderrDrainLoop rest
      (.errorLine s :: r.1, r.2)

/-- Filesystem-relevant circumstances of one `PostgresRedoProcess::launch`
bootstrap (mod.rs lines 304-322): whether the per-tenant scratch directory
already exists, and whether `fs::remove_dir_all` on it would succeed. -/
structure BootstrapEnv where
  datadirExists : Bool
  removeSucceeds : Bool
  deriving DecidableEq, Repr

/-- Whether the scratch directory is still present at the moment `initdb`
runs: the source removes it only when it exists, and on a removal failure
merely logs the error and proceeds (mod.rs lines 307-313). -/
def datadirPresentAtInitdb (env : BootstrapEnv) : Bool :=
  if env.datadirExists then
    if env.removeSucceeds then false else true
  else false

/-- Observable bootstrap actions: a removal attempt with its outcome, and
the `initdb` invocation recording whether the directory is present then. -/
inductive BootstrapAction where
  | removeDatadir (ok : Bool)
  | runInitdb (datadirPresent : Bool)
  deriving DecidableEq, Repr

/-- The action trace of the bootstrap prefix of `launch` (mod.rs lines
304-322): removal is attempted exactly when the directory exists, and
`initdb` runs afterwards in every case. -/
def bootstrapTrace (env : BootstrapEnv) : List BootstrapAction :=
  (if env.datadirExists then [.removeDatadir env.removeSucceeds] else [])
  ++ [.runInitdb (datadirPresentAtInitdb env)]

/-- Phase of one caller thread with respect to `request_redo` on a shared
`PostgresRedoManager`: not yet calling, blocked on `self.process.lock()`
(mod.rs line 191), inside the critical section that performs the launch and
the exchange while holding the guard (mod.rs lines 191-205), or returned
(guard dropped at the end of the block). -/
inductive ThreadPhase where
  | idle
  | waiting
  | exchanging
  | finished
  deriving DecidableEq, Repr

/-- Global state of one manager shared by many caller threads (identified by
naturals): each thread's phase, and the current holder of the process-slot
mutex (`none` when the mutex is free). -/
structure LockState where
  phase : Nat → ThreadPhase
  owner : Option Nat

/-- Interleaving semantics of `request_redo` callers, derived from the
lock structure of mod.rs lines 190-205: a thread enters by calling, may
acquire the mutex only when no thread holds it, and releases it when its
exchange block ends. The whole launch-plus-exchange region happens between
acquire and release, because the source holds the mutex guard across it. -/
inductive RedoStep : LockState → LockState → Prop where
  | call (s : LockState) (t : Nat) (h : s.phase t = .idle) :
      RedoStep s ⟨Function.update s.phase t .waiting, s.owner⟩
  | acquire (s : LockState) (t : Nat) (h : s.phase t = .waiting)
      (ho : s.owner = none) :
      RedoStep s ⟨Function.update s.phase t .exchanging, some t⟩
  | release (s : LockState) (t : Nat) (h : s.phase t = .exchanging)
      (ho : s.owner = some t) :
      RedoStep s ⟨Function.update s.phase t .finished, none⟩

/-- The initial state: no thread has called, the mutex is free. -/
def initLockState : LockState :=
  { phase := fun _ => .idle, owner := none }

/-- States reachable from the initial state by caller interleavings. -/
inductive ReachableLockState : LockState → Prop where
  | init : ReachableLockState initLockState
  | step {s s' : LockState} : ReachableLockState s → RedoStep s s' →
      ReachableLockState s'

/-- The state after thread 0 calls `request_redo` on a fresh manager. -/
def lockStateS1 : LockState :=
  { phase := Function.update initLockState.phase 0 .waiting,
    owner := initLockState.owner }

/-- The state after thread 0 additionally acquires the process-slot mutex
and starts its exchange. -/
def lockStateS2 : LockState :=
  { phase := Function.update lockStateS1.phase 0 .exchanging,
    owner := some 0 }

/-- A concrete relation identity used in witnesses. -/
def relTag0 : RelTag := { spcnode := 1, dbnode := 2, relnode := 3, forknum := 0 }

/-- Stream environment of a well-behaved exchange: instant steps, successful
writes, a full page of zero bytes on stdout. -/
def okExchangeEnv : ExchangeEnv :=
  { writeDur := 0, flushDur := 0, readDur := 0,
    writeRes := .ok (), flushRes := .ok (),
    stdoutData := List.replicate 8192 0 }

/-- Stream environment whose write step takes 21 seconds (exceeding the
20-second bound) and whose stdout stream is closed without data. -/
def failExchangeEnv : ExchangeEnv :=
  { writeDur := 21, flushDur := 0, readDur := 0,
    writeRes := .ok (), flushRes := .ok (), stdoutData := [] }

/-- Call environment with a successful launch of process 7 taking 5 seconds,
a 2-second lock wait, a 3-second apply, and a well-behaved exchange. -/
def sampleRedoEnv : RedoEnv :=
  { launchResult := .ok { pid := 7 }, launchDur := 5,
    lockWaitDur := 2, applyDur := 3, exch := okExchangeEnv }

/-- Call environment identical to `sampleRedoEnv` except that the exchange
fails (21-second write, closed stdout). -/
def failExchRedoEnv : RedoEnv :=
  { launchResult := .ok { pid := 7 }, launchDur := 5,
    lockWaitDur := 2, applyDur := 3, exch := failExchangeEnv }

/-- Call environment in which the process launch itself fails. -/
def failLaunchRedoEnv : RedoEnv :=
  { launchResult := .error (.streamErr 9), launchDur := 5,
    lockWaitDur := 2, applyDur := 3, exch := okExchangeEnv }

/-- A manager state already holding process 7, with some metric history. -/
def someProcState : ManagerState :=
  { process := some { pid := 7 }, walRecordsReplayed := 0,
    waitTimeObs := [1], redoTimeObs := [4] }

/-- Two concrete WAL records, as in the spec's end-to-end scenario. -/
def sampleRecords : List WALRecord :=
  [{ lsn := 10, recBytes := [1, 2] }, { lsn := 11, recBytes := [3] }]

/-- In every reachable state, a thread inside the exchange region holds the
process-slot mutex. -/
theorem exchanging_owner_inv {s : LockState} (hs : ReachableLockState s) :
    ∀ t, s.phase t = .exchanging → s.owner = some t := by
  induction hs with
  | init =>
      intro t ht
      simp [initLockState] at ht
  | step _ hstep ih =>
      cases hstep with
      | call t h =>
          intro u hu
          simp only [Function.update_apply] at hu
          by_cases hut : u = t
          · rw [if_pos hut] at hu
            simp at hu
          · rw [if_neg hut] at hu
            exact ih u hu
      | acquire t h ho =>
          intro u hu
          simp only [Function.update_apply] at hu
          by_cases hut : u = t
          · subst hut
            rfl
          · rw [if_neg hut] at hu
            have h2 := ih u hu
            rw [ho] at h2
            simp at h2
      | release t h ho =>
          intro u hu
          simp only [Function.update_apply] at hu
          by_cases hut : u = t
          · rw [if_pos hut] at hu
            simp at hu
          · rw [if_neg hut] at hu
            have h2 := ih u hu
            rw [ho] at h2
            have h3 : t = u := Option.some.inj h2
            exact absurd h3.symm hut

/-- C1: At most one redo exchange per manager is in flight at any time: in
every state reachable by interleaved callers of `request_redo`, the
exclusive lock on the process slot ensures that no two distinct threads are
simultaneously inside the launch-plus-exchange region, so no second
exchange begins before the first ends. -/
theorem c1_exchange_mutual_exclusion {s : LockState}
    (hs : ReachableLockState s) (t1 t2 : Nat)
    (h1 : s.phase t1 = .exchanging) (h2 : s.phase t2 = .exchanging) :
    t1 = t2 := by
  have o1 := exchanging_owner_inv hs t1 h1
  have o2 := exchanging_owner_inv hs t2 h2
  rw [o1] at o2
  exact Option.some.inj o2

/-- Witness for C1: after thread 0 calls and acquires the lock, the
resulting concrete state is reachable, thread 0 is exchanging, and the
mutual-exclusion theorem applies to it. -/
theorem c1_exchange_mutual_exclusion_witness :
    lockStateS2.phase 0 = .exchanging ∧ (0 : Nat) = 0 := by
  have hstep1 : RedoStep initLockState lockStateS1 :=
    RedoStep.call initLockState 0 rfl
  have hstep2 : RedoStep lockStateS1 lockStateS2 :=
    RedoStep.acquire lockStateS1 0
      (by simp [lockStateS1, initLockState, Function.update_apply]) rfl
  have hreach : ReachableLockState lockStateS2 :=
    .step (.step .init hstep1) hstep2
  have hph : lockStateS2.phase 0 = .exchanging := by
    simp [lockStateS2, lockStateS1, Function.update_apply]
  exact ⟨hph, c1_exchange_mutual_exclusion hreach 0 0 hph hph⟩

/-- The read half fails with a timeout whenever the read step exceeds the
bound. -/
theorem f_stdout_timeout (env : ExchangeEnv) (h : TIMEOUT < env.readDur) :
    f_stdout env = .error .timedOut := by
  simp [f_stdout, timeoutStep, h]

/-- The write half fails whenever the write or the flush step exceeds the
bound. -/
theorem f_stdin_timeout (env : ExchangeEnv) (tag : BufferTag)
    (base_img : Option Bytes) (records : List WALRecord)
    (h : TIMEOUT < env.writeDur ∨ TIMEOUT < env.flushDur) :
    ∃ e, f_stdin env tag base_img records = .error e := by
  rcases h with hw | hf
  · exact ⟨.timedOut, by simp [f_stdin, timeoutStep, hw]⟩
  · cases hts : timeoutStep env.writeDur env.writeRes with
    | error ew => exact ⟨ew, by simp [f_stdin, hts]⟩
    | ok u =>
        refine ⟨.timedOut, ?_⟩
        simp only [f_stdin]
        rw [hts]
        simp [timeoutStep, hf]

/-- A failing write half makes the whole exchange fail. -/
theorem apply_wal_records_error_of_stdin (env : ExchangeEnv) (tag : BufferTag)
    (base_img : Option Bytes) (records : List WALRecord)
    (h : ∃ e1, f_stdin env tag base_img records = .error e1) :
    ∃ e, apply_wal_records env tag base_img records = .error e := by
  obtain ⟨e1, h1⟩ := h
  cases hfo : f_stdout env with
  | error e0 => exact ⟨e0, by simp [apply_wal_records, hfo]⟩
  | ok buf => exact ⟨e1, by simp [apply_wal_records, hfo, h1]⟩

/-- A failing read half makes the whole exchange fail. -/
theorem apply_wal_records_error_of_stdout (env : ExchangeEnv) (tag : BufferTag)
    (base_img : Option Bytes) (records : List WALRecord) (e : IoErr)
    (h : f_stdout env = .error e) :
    apply_wal_records env tag base_img records = .error e := by
  simp [apply_wal_records, h]

/-- An exchange error is wrapped as a `WalRedoError.IoError` by
`handle_apply_request` (mod.rs lines 271-273). -/
theorem handle_apply_request_error (applyNonrel : WalRedoRequest → Bytes)
    (env : ExchangeEnv) (rel : RelTag) (blknum lsn : Nat)
    (base_img : Option Bytes) (records : List WALRecord) (e : IoErr)
    (h : apply_wal_records env { rel := rel, blknum := blknum }
        base_img records = .error e) :
    handle_apply_request applyNonrel env
      { rel := .Relation rel, blknum := blknum, lsn := lsn,
        base_img := base_img, records := records } = .error (.IoError e) := by
  simp [handle_apply_request, h]

/-- C2: in `apply_wal_records` the write of the encoded buffer, the flush
and the read of the response are each independently bounded by the same
fixed 20-second `TIMEOUT`, and if any one of them exceeds its bound the
whole exchange fails with an IO failure that reaches the caller of
`handle_apply_request`. -/
theorem c2_timeout_bound (applyNonrel : WalRedoRequest → Bytes)
    (env : ExchangeEnv) (rel : RelTag) (blknum lsn : Nat)
    (base_img : Option Bytes) (records : List WALRecord)
    (h : TIMEOUT < env.writeDur ∨ TIMEOUT < env.flushDur ∨
      TIMEOUT < env.readDur) :
    TIMEOUT = 20 ∧
    ∃ e : IoErr,
      apply_wal_records env { rel := rel, blknum := blknum } base_img records
        = .error e ∧
      handle_apply_request applyNonrel env
        { rel := .Relation rel, blknum := blknum, lsn := lsn,
          base_img := base_img, records := records } = .error (.IoError e) := by
  refine ⟨rfl, ?_⟩
  have hex : ∃ e, apply_wal_records env { rel := rel, blknum := blknum }
      base_img records = .error e := by
    rcases h with hw | hf | hr
    · exact apply_wal_records_error_of_stdin env _ base_img records
        (f_stdin_timeout env _ base_img records (Or.inl hw))
    · exact apply_wal_records_error_of_stdin env _ base_img records
        (f_stdin_timeout env _ base_img records (Or.inr hf))
    · exact ⟨.timedOut, apply_wal_records_error_of_stdout env _ base_img
        records .timedOut (f_stdout_timeout env hr)⟩
  obtain ⟨e, he⟩ := hex
  exact ⟨e, he, handle_apply_request_error applyNonrel env rel blknum lsn
    base_img records e he⟩

/-- Witness for C2: with a 21-second write step the exchange concretely
fails and the failure reaches the caller. -/
theorem c2_timeout_bound_witness :
    (TIMEOUT < failExchangeEnv.writeDur ∨ TIMEOUT < failExchangeEnv.flushDur ∨
      TIMEOUT < failExchangeEnv.readDur) ∧
    (TIMEOUT = 20 ∧
     ∃ e : IoErr,
       apply_wal_records failExchangeEnv { rel := relTag0, blknum := 0 } none []
         = .error e ∧
       handle_apply_request (fun _ => []) failExchangeEnv
         { rel := .Relation relTag0, blknum := 0, lsn := 0,
           base_img := none, records := [] } = .error (.IoError e)) :=
  ⟨Or.inl (by decide),
   c2_timeout_bound (fun _ => []) failExchangeEnv relTag0 0 0 none []
     (Or.inl (by decide))⟩

/-- A successful exchange returns precisely the first 8192 bytes the
process emitted on stdout, and such bytes must exist. -/
theorem apply_wal_records_ok (env : ExchangeEnv) (tag : BufferTag)
    (base_img : Option Bytes) (records : List WALRecord) (img : Bytes)
    (h : apply_wal_records env tag base_img records = .ok img) :
    img = env.stdoutData.take 8192 ∧ 8192 ≤ env.stdoutData.length := by
  simp only [apply_wal_records] at h
  split at h
  · exact absurd h (by simp)
  next buf hfo =>
    split at h
    · exact absurd h (by simp)
    next =>
      have hbuf : buf = img := by
        injection h
      subst hbuf
      simp only [f_stdout, timeoutStep] at hfo
      split at hfo
      · exact absurd hfo (by simp)
      · simp only [read_exact] at hfo
        split at hfo
        next hle =>
          have : env.stdoutData.take 8192 = buf := by
            injection hfo
          exact ⟨this.symm, hle⟩
        · exact absurd hfo (by simp)

/-- C3: every successful relation-page exchange through
`handle_apply_request` returns a page image of exactly 8192 bytes — the
fixed protocol page-buffer size — and that image is the buffer read from
the process's stdout returned verbatim, with no semantic validation of its
contents (any emitted bytes are accepted). -/
theorem c3_page_image_verbatim (applyNonrel : WalRedoRequest → Bytes)
    (env : ExchangeEnv) (rel : RelTag) (blknum lsn : Nat)
    (base_img : Option Bytes) (records : List WALRecord) (img : Bytes)
    (h : handle_apply_request applyNonrel env
      { rel := .Relation rel, blknum := blknum, lsn := lsn,
        base_img := base_img, records := records } = .ok img) :
    img.length = 8192 ∧ img = env.stdoutData.take 8192 := by
  have ha : apply_wal_records env { rel := rel, blknum := blknum }
      base_img records = .ok img := by
    simp only [handle_apply_request] at h
    split at h
    · exact absurd h (by simp)
    next img2 heq =>
      have : img2 = img := by
        injection h
      rw [← this]
      exact heq
  obtain ⟨himg, hle⟩ := apply_wal_records_ok env _ base_img records img ha
  refine ⟨?_, himg⟩
  rw [himg, List.length_take]
  exact Nat.min_eq_left hle

/-- Against the well-behaved stream environment, the exchange concretely
succeeds with a full page of zeros, whatever the request content. -/
theorem handle_ok_okExchangeEnv (lsn : Nat) (base_img : Option Bytes)
    (records : List WALRecord) :
    handle_apply_request (fun _ => []) okExchangeEnv
      { rel := .Relation relTag0, blknum := 0, lsn := lsn,
        base_img := base_img, records := records }
      = .ok (List.replicate 8192 (0 : Nat)) := by
  have hread : read_exact (List.replicate 8192 (0 : Nat)) 8192
      = .ok (List.replicate 8192 (0 : Nat)) := by
    rw [read_exact, List.length_replicate, if_pos (le_refl 8192),
      List.take_replicate, Nat.min_self]
  have hfo : f_stdout okExchangeEnv = .ok (List.replicate 8192 (0 : Nat)) := by
    show timeoutStep 0 (read_exact (List.replicate 8192 (0 : Nat)) 8192) = _
    rw [timeoutStep, if_neg (by decide), hread]
  have hfi : f_stdin okExchangeEnv { rel := relTag0, blknum := 0 }
      base_img records = .ok () := rfl
  simp only [handle_apply_request, apply_wal_records]
  rw [hfo, hfi]

/-- Witness for C3: against a stream emitting a full page of zeros, the
exchange succeeds and the theorem applies. -/
theorem c3_page_image_verbatim_witness :
    (List.replicate 8192 (0 : Nat)).length = 8192 ∧
    List.replicate 8192 (0 : Nat) = okExchangeEnv.stdoutData.take 8192 :=
  c3_page_image_verbatim (fun _ => []) okExchangeEnv relTag0 0 0 none []
    (List.replicate 8192 0) (handle_ok_okExchangeEnv 0 none [])

/-- C4: a request whose object identity is not a relation page never
touches the process streams: `handle_apply_request` returns the value of
the pure in-process function `apply_nonrel` applied to the same request,
its result does not depend on the stream environment at all, and the call
succeeds even when every stream operation would fail. -/
theorem c4_nonrel_pure (applyNonrel : WalRedoRequest → Bytes)
    (kind blknum lsn : Nat) (base_img : Option Bytes)
    (records : List WALRecord) (env env2 : ExchangeEnv) :
    handle_apply_request applyNonrel env
      { rel := .NonRelation kind, blknum := blknum, lsn := lsn,
        base_img := base_img, records := records }
      = .ok (applyNonrel
        { rel := .NonRelation kind, blknum := blknum, lsn := lsn,
          base_img := base_img, records := records }) ∧
    handle_apply_request applyNonrel env
      { rel := .NonRelation kind, blknum := blknum, lsn := lsn,
        base_img := base_img, records := records }
      = handle_apply_request applyNonrel env2
        { rel := .NonRelation kind, blknum := blknum, lsn := lsn,
          base_img := base_img, records := records } := by
  constructor
  · simp [handle_apply_request]
  · simp [handle_apply_request]

/-- C5 (code bug): the records-replayed counter `WAL_REDO_RECORD_COUNTER`
is declared (mod.rs lines 117-121) but never incremented anywhere in the
module: every `request_redo` call, successful or not, leaves it unchanged.
In particular the spec's end-to-end scenario — a successful redo of the
two-record sequence `sampleRecords` — increases it by 0, not 2. -/
theorem c5_counter_never_incremented :
    (∀ (applyNonrel : WalRedoRequest → Bytes) (env : RedoEnv)
        (st : ManagerState) (rel : RelishTag) (blknum lsn : Nat)
        (base_img : Option Bytes) (records : List WALRecord),
      ((request_redo applyNonrel env st rel blknum lsn base_img
        records).2).walRecordsReplayed = st.walRecordsReplayed) ∧
    sampleRecords.length = 2 ∧
    (request_redo (fun _ => []) sampleRedoEnv PostgresRedoManager.new
        (.Relation relTag0) 0 0 none sampleRecords).1
      = .ok (List.replicate 8192 (0 : Nat)) ∧
    ((request_redo (fun _ => []) sampleRedoEnv PostgresRedoManager.new
        (.Relation relTag0) 0 0 none sampleRecords).2).walRecordsReplayed
      = 0 := by
  refine ⟨?_, rfl, ?_, ?_⟩
  · intro applyNonrel env st rel blknum lsn base_img records
    rcases st with ⟨proc, cnt, wobs, robs⟩
    cases proc with
    | none =>
        cases hl : env.launchResult with
        | error e => simp [request_redo, hl]
        | ok p => simp [request_redo, hl]
    | some p => simp [request_redo]
  · simp only [request_redo, PostgresRedoManager.new, sampleRedoEnv]
    exact handle_ok_okExchangeEnv 0 none sampleRecords
  · rfl

/-- C6 counterexample: the process is not created lazily on the first
relation-page request but on the first request of any kind: a fresh manager
whose single call is for a non-page object kind ends up holding a process
handle, contradicting the claim that such a manager has no process. -/
theorem c6_lazy_creation_counterexample :
    ((request_redo (fun _ => []) sampleRedoEnv PostgresRedoManager.new
        (.NonRelation 5) 1 2 none []).2).process = some { pid := 7 } := by
  simp [request_redo, PostgresRedoManager.new, sampleRedoEnv,
    handle_apply_request]

/-- C6 (amended): the process handle is created lazily on the first request
of any kind (the launch at mod.rs lines 195-200 happens before the branch
on the object kind); once created it persists for the manager's lifetime
and every later call reuses the same instance. -/
theorem c6_lazy_creation_amended :
    PostgresRedoManager.new.process = none ∧
    (∀ (applyNonrel : WalRedoRequest → Bytes) (env : RedoEnv)
        (st : ManagerState) (rel : RelishTag) (blknum lsn : Nat)
        (base_img : Option Bytes) (records : List WALRecord)
        (p : PostgresRedoProcess),
      st.process = none → env.launchResult = .ok p →
      ((request_redo applyNonrel env st rel blknum lsn base_img
        records).2).process = some p) ∧
    (∀ (applyNonrel : WalRedoRequest → Bytes) (env : RedoEnv)
        (st : ManagerState) (rel : RelishTag) (blknum lsn : Nat)
        (base_img : Option Bytes) (records : List WALRecord)
        (p : PostgresRedoProcess),
      st.process = some p →
      ((request_redo applyNonrel env st rel blknum lsn base_img
        records).2).process = some p) := by
  refine ⟨rfl, ?_, ?_⟩
  · intro applyNonrel env st rel blknum lsn base_img records p hp hl
    simp [request_redo, hp, hl]
  · intro applyNonrel env st rel blknum lsn base_img records p hp
    simp [request_redo, hp]

/-- Witness for the amended C6: a concrete first call creates process 7 and
a concrete later call on a manager already holding process 7 keeps it. -/
theorem c6_lazy_creation_amended_witness :
    ((request_redo (fun _ => []) sampleRedoEnv PostgresRedoManager.new
        (.NonRelation 5) 1 2 none []).2).process = some { pid := 7 } ∧
    ((request_redo (fun _ => []) sampleRedoEnv someProcState
        (.NonRelation 5) 1 2 none []).2).process = some { pid := 7 } :=
  ⟨c6_lazy_creation_amended.2.1 (fun _ => []) sampleRedoEnv
      PostgresRedoManager.new (.NonRelation 5) 1 2 none [] { pid := 7 }
      rfl rfl,
   c6_lazy_creation_amended.2.2 (fun _ => []) sampleRedoEnv someProcState
      (.NonRelation 5) 1 2 none [] { pid := 7 } rfl⟩

/-- C7: when the duplex exchange fails with an IO failure (timeouts
included), the error is returned to the caller wrapped as the interface's
transparent IO variant, without retry, and the stored process handle is
left untouched, so the next call reuses the same handle. -/
theorem c7_error_passthrough_handle_kept (applyNonrel : WalRedoRequest → Bytes)
    (env : RedoEnv) (st : ManagerState) (r : RelTag) (blknum lsn : Nat)
    (base_img : Option Bytes) (records : List WALRecord)
    (p : PostgresRedoProcess) (e : IoErr)
    (hp : st.process = some p)
    (he : apply_wal_records env.exch { rel := r, blknum := blknum }
      base_img records = .error e) :
    (request_redo applyNonrel env st (.Relation r) blknum lsn base_img
      records).1 = .error (.IoError e) ∧
    ((request_redo applyNonrel env st (.Relation r) blknum lsn base_img
      records).2).process = some p := by
  constructor
  · simp [request_redo, hp, handle_apply_request, he]
  · simp [request_redo, hp]

/-- Witness for C7: a concrete failing exchange (closed stdout stream)
against a manager holding process 7 returns the wrapped stream error and
keeps process 7. -/
theorem c7_error_passthrough_handle_kept_witness :
    someProcState.process = some { pid := 7 } ∧
    apply_wal_records failExchRedoEnv.exch { rel := relTag0, blknum := 0 }
      none [] = .error (.streamErr 0) ∧
    (request_redo (fun _ => []) failExchRedoEnv someProcState
      (.Relation relTag0) 0 0 none []).1 = .error (.IoError (.streamErr 0)) ∧
    ((request_redo (fun _ => []) failExchRedoEnv someProcState
      (.Relation relTag0) 0 0 none []).2).process = some { pid := 7 } := by
  have he : apply_wal_records failExchRedoEnv.exch
      { rel := relTag0, blknum := 0 } none [] = .error (.streamErr 0) := rfl
  have h := c7_error_passthrough_handle_kept (fun _ => []) failExchRedoEnv
    someProcState relTag0 0 0 none [] { pid := 7 } (.streamErr 0) rfl he
  exact ⟨rfl, he, h.1, h.2⟩

/-- C8 counterexample: the redo-duration metric does not measure only the
time spent in the actual redo exchange: on a first call with a 5-second
launch and a 3-second apply, the observed redo duration is 8 seconds, not
the 3-second exchange time. -/
theorem c8_metrics_counterexample :
    ((request_redo (fun _ => []) sampleRedoEnv PostgresRedoManager.new
        (.NonRelation 0) 0 0 none []).2).redoTimeObs = [8] ∧
    sampleRedoEnv.applyDur = 3 := by
  constructor
  · simp [request_redo, PostgresRedoManager.new, sampleRedoEnv,
      handle_apply_request]
  · rfl

/-- C8 (amended): when the call reaches the exchange, `request_redo`
records exactly one observation in each of the two duration histograms: the
wait metric is the time from call entry to acquisition of the process-slot
lock, and the redo metric is the time from lock acquisition to the end of
the exchange — equal to the exchange time on reuse, but including the
process launch on first use; when the launch fails, neither metric is
recorded. -/
theorem c8_metrics_amended (applyNonrel : WalRedoRequest → Bytes)
    (env : RedoEnv) (st : ManagerState) (rel : RelishTag) (blknum lsn : Nat)
    (base_img : Option Bytes) (records : List WALRecord) :
    (∀ p : PostgresRedoProcess, st.process = some p →
      ((request_redo applyNonrel env st rel blknum lsn base_img
        records).2).waitTimeObs = st.waitTimeObs ++ [env.lockWaitDur] ∧
      ((request_redo applyNonrel env st rel blknum lsn base_img
        records).2).redoTimeObs = st.redoTimeObs ++ [env.applyDur]) ∧
    (∀ p : PostgresRedoProcess, st.process = none →
      env.launchResult = .ok p →
      ((request_redo applyNonrel env st rel blknum lsn base_img
        records).2).waitTimeObs = st.waitTimeObs ++ [env.lockWaitDur] ∧
      ((request_redo applyNonrel env st rel blknum lsn base_img
        records).2).redoTimeObs
        = st.redoTimeObs ++ [env.launchDur + env.applyDur]) ∧
    (∀ e : IoErr, st.process = none → env.launchResult = .error e →
      ((request_redo applyNonrel env st rel blknum lsn base_img
        records).2).waitTimeObs = st.waitTimeObs ∧
      ((request_redo applyNonrel env st rel blknum lsn base_img
        records).2).redoTimeObs = st.redoTimeObs) := by
  refine ⟨?_, ?_, ?_⟩
  · intro p hp
    constructor <;> simp [request_redo, hp]
  · intro p hp hl
    constructor <;> simp [request_redo, hp, hl]
  · intro e hp hl
    constructor <;> simp [request_redo, hp, hl]

/-- Witness for the amended C8: concrete calls exercising the reuse case,
the first-launch case, and the launch-failure case. -/
theorem c8_metrics_amended_witness :
    (((request_redo (fun _ => []) sampleRedoEnv someProcState
        (.NonRelation 0) 0 0 none []).2).waitTimeObs
      = someProcState.waitTimeObs ++ [sampleRedoEnv.lockWaitDur]) ∧
    (((request_redo (fun _ => []) sampleRedoEnv PostgresRedoManager.new
        (.NonRelation 0) 0 0 none []).2).redoTimeObs
      = PostgresRedoManager.new.redoTimeObs
        ++ [sampleRedoEnv.launchDur + sampleRedoEnv.applyDur]) ∧
    (((request_redo (fun _ => []) failLaunchRedoEnv PostgresRedoManager.new
        (.NonRelation 0) 0 0 none []).2).redoTimeObs
      = PostgresRedoManager.new.redoTimeObs) :=
  ⟨((c8_metrics_amended (fun _ => []) sampleRedoEnv someProcState
      (.NonRelation 0) 0 0 none []).1 { pid := 7 } rfl).1,
   ((c8_metrics_amended (fun _ => []) sampleRedoEnv PostgresRedoManager.new
      (.NonRelation 0) 0 0 none []).2.1 { pid := 7 } rfl rfl).2,
   ((c8_metrics_amended (fun _ => []) failLaunchRedoEnv
      PostgresRedoManager.new (.NonRelation 0) 0 0 none []).2.2
      (.streamErr 9) rfl rfl).2⟩

/-- C9: the stderr drain loop forwards each decoded line to the log at
error severity and continues; a line-decoding failure produces one
low-severity (debug) log entry and the loop continues with the rest of the
stream; and whenever the loop breaks out, the read result it broke on is a
clean end-of-stream — so it terminates only on a clean end-of-stream (or,
vacuously, an unrecoverable read failure; in this code no read failure ever
terminates it). -/
theorem c9_stderr_drain_loop (s : Bytes) (rest evs : List ReadLineResult) :
    stderrDrainLoop (.line s :: rest)
      = (.errorLine s :: (stderrDrainLoop rest).1, (stderrDrainLoop rest).2) ∧
    stderrDrainLoop (.decodeErr :: rest)
      = (.debugDecodeFailure :: (stderrDrainLoop rest).1,
        (stderrDrainLoop rest).2) ∧
    ((stderrDrainLoop evs).2 = none ∨ (stderrDrainLoop evs).2 = some .eof) := by
  refine ⟨rfl, rfl, ?_⟩
  induction evs with
  | nil => exact Or.inl rfl
  | cons e rest2 ih =>
      cases e with
      | decodeErr => simpa [stderrDrainLoop] using ih
      | eof => exact Or.inr rfl
      | line s2 => simpa [stderrDrainLoop] using ih

/-- C10 counterexample: when the scratch directory exists and its removal
fails, the one-shot cluster initializer still runs — with the directory
present, contradicting the claim that the initializer always starts from an
absent directory. -/
theorem c10_bootstrap_counterexample :
    bootstrapTrace { datadirExists := true, removeSucceeds := false }
      = [.removeDatadir false, .runInitdb true] := rfl

/-- C10 (amended): during bootstrap an existing scratch directory has its
removal attempted before the initializer runs, but a removal failure is
only logged and the initializer runs regardless, so it starts from an
absent directory exactly when no directory existed or the removal
succeeded. -/
theorem c10_bootstrap_amended (env : BootstrapEnv) :
    (env.datadirExists = true →
      bootstrapTrace env
        = [.removeDatadir env.removeSucceeds,
           .runInitdb (!env.removeSucceeds)]) ∧
    (env.datadirExists = false → bootstrapTrace env = [.runInitdb false]) ∧
    (datadirPresentAtInitdb env = false
      ↔ (env.datadirExists = false ∨ env.removeSucceeds = true)) := by
  rcases env with ⟨de, rs⟩
  cases de <;> cases rs <;>
    simp [bootstrapTrace, datadirPresentAtInitdb]

/-- Witness for the amended C10: a concrete bootstrap over an existing
directory whose removal succeeds. -/
theorem c10_bootstrap_amended_witness :
    bootstrapTrace { datadirExists := true, removeSucceeds := true }
      = [.removeDatadir true, .runInitdb (!true)] :=
  (c10_bootstrap_amended { datadirExists := true, removeSucceeds := true }).1
    rfl
